import Mathlib

set_option maxRecDepth 8000

/-! Shallow embedding of the bank-statement parsing engine
(src/src/parser/bca_parser.ts) of the bank-parser-indonesia repository.

Conventions of the embedding:
* JS numbers are modelled as exact rationals in the explicit fraction type
  JsRat below (numerator and positive denominator, kept normalised); a
  NaN-producing numeric parse is modelled as an Option that is none.
* Token objects carry an id so that JS reference equality between tokens
  picked out of the same array can be modelled faithfully.
* JS Array.prototype.sort (stable) is modelled by a stable insertion sort
  driven by the numeric comparator of the source.
* The two while loops of parseBCAItems advance their index by at least one
  on every iteration, so running them with fuel equal to the item count
  plus one reproduces the JS behaviour exactly; the fuel-exhausted branches
  are unreachable on those budgets.
* Regular-expression literals of the source are embedded as executable
  character-list recognisers of the same languages, and the JS string
  methods used by the source (toLowerCase, includes, trim, split, replace,
  startsWith, join) are embedded as structurally recursive functions on
  the character lists of the strings.
-/

/-- Transaction kind of a TrxRecord: "debit" of "credit" of "saldo_awal". -/
inductive TrxType where
  | debit : TrxType
  | credit : TrxType
  | saldo_awal : TrxType
deriving DecidableEq, Repr

/-- An exact rational: the model of a JS number. All values built by the
parsers have a positive denominator and are kept normalised by mkRed. -/
structure JsRat where
  num : Int
  den : Nat
deriving DecidableEq, Repr

instance (n : Nat) : OfNat JsRat n := ⟨⟨(n : Int), 1⟩⟩

/-- Build the normalised fraction n / d. -/
def JsRat.mkRed (n : Int) (d : Nat) : JsRat :=
  let g := Nat.gcd n.natAbs d
  if g ≤ 1 then ⟨n, d⟩ else ⟨n / (g : Int), d / g⟩

/-- Negation. -/
def JsRat.neg (a : JsRat) : JsRat := ⟨-a.num, a.den⟩

/-- Addition. -/
def JsRat.add (a b : JsRat) : JsRat :=
  JsRat.mkRed (a.num * (b.den : Int) + b.num * (a.den : Int)) (a.den * b.den)

/-- Subtraction. -/
def JsRat.sub (a b : JsRat) : JsRat := a.add b.neg

/-- JS Math.abs. -/
def JsRat.abs (a : JsRat) : JsRat := ⟨(a.num.natAbs : Int), a.den⟩

/-- The strict comparison a < b (valid for positive denominators). -/
def JsRat.blt (a b : JsRat) : Bool := a.num * (b.den : Int) < b.num * (a.den : Int)

/-- Whether the value is negative (valid for positive denominators). -/
def JsRat.isNegB (a : JsRat) : Bool := a.num < 0

/-- Division by two, as used by the row-bucketing key y / 2. -/
def JsRat.half (a : JsRat) : JsRat := JsRat.mkRed a.num (a.den * 2)

/-- Floor (valid for positive denominators). -/
def JsRat.floor (a : JsRat) : Int := Int.fdiv a.num a.den

/-- JS Math.max of two numbers. -/
def JsRat.maxJ (a b : JsRat) : JsRat := if a.blt b then b else a

/-- TrxRecord of ./shared: tahun (year, possibly NaN), tgl (date text),
ket (description), type, mutasi (amount, possibly NaN), saldo (balance,
possibly NaN). -/
structure TrxRecord where
  tahun : Option Int
  tgl : String
  ket : String
  type : TrxType
  mutasi : Option JsRat
  saldo : Option JsRat
deriving DecidableEq, Repr

/-- A pdfjs TextItem restricted to the fields the parsers read:
item.str, item.transform[4] (x) and item.transform[5] (y). -/
structure Item where
  str : String
  x : JsRat
  y : JsRat
deriving DecidableEq, Repr

/-- PositionedItem of the Mandiri parsers, with an id recording the
position of the originating TextItem so that JS reference equality
(item !== other) can be expressed. -/
structure PosItem where
  id : Nat
  text : String
  x : JsRat
  y : JsRat
deriving DecidableEq, Repr

/-- Whitespace as matched by a JS regular-expression \s (ASCII part). -/
def isWsChar (c : Char) : Bool := c.isWhitespace

/-- JS String.prototype.toLowerCase, ASCII fragment. -/
def jsToLower (s : String) : String := String.mk (s.data.map Char.toLower)

/-- JS String.prototype.toUpperCase, ASCII fragment. -/
def jsToUpper (s : String) : String := String.mk (s.data.map Char.toUpper)

/-- JS String.prototype.includes: substring containment. -/
def jsIncludes (s pat : String) : Bool := decide (pat.data <:+: s.data)

/-- JS String.prototype.trim on a character list. -/
def trimChars (l : List Char) : List Char :=
  ((l.dropWhile isWsChar).reverse.dropWhile isWsChar).reverse

/-- JS String.prototype.trim. -/
def jsTrim (s : String) : String := String.mk (trimChars s.data)

/-- JS String.prototype.split with a one-character separator, on
character lists; the result list is always nonempty. -/
def splitOnChar (sep : Char) : List Char → List (List Char)
  | [] => [[]]
  | c :: t =>
    if c == sep then [] :: splitOnChar sep t
    else
      match splitOnChar sep t with
      | g :: gs => (c :: g) :: gs
      | [] => [[c]]

/-- JS String.prototype.split with a one-character separator. -/
def jsSplitChar (sep : Char) (s : String) : List String :=
  (splitOnChar sep s.data).map (fun l => String.mk l)

/-- JS Array.prototype.join on character lists. -/
def interChars (sep : List Char) : List (List Char) → List Char
  | [] => []
  | [x] => x
  | x :: y :: xs => x ++ sep ++ interChars sep (y :: xs)

/-- JS Array.prototype.join with a separator string. -/
def jsJoin (sep : String) (l : List String) : String :=
  String.mk (interChars sep.data (l.map String.data))

/-- Concatenation of a list of strings. -/
def jsConcat (l : List String) : String := String.mk ((l.map String.data).flatten)

/-- JS String.prototype.startsWith. -/
def jsStartsWith (s pre : String) : Bool := pre.data.isPrefixOf s.data

/-- Decimal value of a digit string (as read left to right). -/
def digitsToNat (l : List Char) : ℕ :=
  l.foldl (fun n c => 10 * n + (c.toNat - '0'.toNat)) 0

/-- Magnitude part of JS parseFloat: leading digits, then an optional
fractional part after a period; none when no digit is found (NaN). -/
def jsParseFloatCore (neg : Bool) (l : List Char) : Option JsRat :=
  let intDs := l.takeWhile Char.isDigit
  let rest := l.dropWhile Char.isDigit
  let fracDs := if rest.head? = some '.' then rest.tail.takeWhile Char.isDigit else []
  if intDs.isEmpty && fracDs.isEmpty then none
  else
    let mag : JsRat := JsRat.add ⟨(digitsToNat intDs : Int), 1⟩
      (JsRat.mkRed (digitsToNat fracDs : Int) (10 ^ fracDs.length))
    some (if neg then mag.neg else mag)

/-- JS parseFloat on the character sets produced by the parsers (digits,
periods, commas and signs; no exponents can occur): leading whitespace is
skipped, an optional sign is read, and the longest numeric prefix is
converted; none models NaN. -/
def jsParseFloat (s : String) : Option JsRat :=
  let l := s.data.dropWhile isWsChar
  if l.head? = some '-' then jsParseFloatCore true l.tail
  else if l.head? = some '+' then jsParseFloatCore false l.tail
  else jsParseFloatCore false l

/-- Magnitude part of JS parseInt with radix 10. -/
def jsParseIntMag (neg : Bool) (l : List Char) : Option Int :=
  let ds := l.takeWhile Char.isDigit
  if ds.isEmpty then none
  else some (if neg then -(digitsToNat ds : Int) else (digitsToNat ds : Int))

/-- JS parseInt(s, 10): none models NaN. -/
def jsParseInt (s : String) : Option Int :=
  let l := s.data.dropWhile isWsChar
  if l.head? = some '-' then jsParseIntMag true l.tail
  else if l.head? = some '+' then jsParseIntMag false l.tail
  else jsParseIntMag false l

/-- JS s.replace(",", "."): replace only the first comma. -/
def replaceFirstComma : List Char → List Char
  | [] => []
  | c :: t => if c == ',' then '.' :: t else c :: replaceFirstComma t

/-- Amount cleaning of the Mandiri parsers:
text.replace(periods, "").replace(",", ".").replace(signs, ""). -/
def cleanAmount (s : String) : String :=
  String.mk ((replaceFirstComma (s.data.filter (fun c => c != '.'))).filter
    (fun c => !(c == '+' || c == '-')))

/-- Balance cleaning of the Mandiri parsers:
text.replace(periods, "").replace(",", "."). -/
def cleanBalance (s : String) : String :=
  String.mk (replaceFirstComma (s.data.filter (fun c => c != '.')))

/-- Amount cleaning of parseBCAItems: str.replace(commas, ""). -/
def bcaAmount (s : String) : Option JsRat :=
  jsParseFloat (String.mk (s.data.filter (fun c => c != ',')))

/-- Date matcher of Format A (dateRgx of the source):
day 01-31, slash, month 01-12, nothing else. -/
def dateRgxTest (s : String) : Bool :=
  match s.data with
  | [d1, d2, sl, m1, m2] =>
    (sl == '/') &&
    (((d1 == '0') && d2.isDigit && (d2 != '0')) ||
     (((d1 == '1') || (d1 == '2')) && d2.isDigit) ||
     ((d1 == '3') && ((d2 == '0') || (d2 == '1')))) &&
    (((m1 == '0') && m2.isDigit && (m2 != '0')) ||
     ((m1 == '1') && ((m2 == '0') || (m2 == '1') || (m2 == '2'))))
  | _ => false

/-- Recogniser of the comma-group-and-fraction part of moneyRgx:
zero or more groups of a comma and three digits, then a period and
exactly two digits. -/
def moneyGroups : List Char → Bool
  | [] => false
  | c :: rest =>
    if c = ',' then
      match rest with
      | a :: b :: d :: rest2 => a.isDigit && b.isDigit && d.isDigit && moneyGroups rest2
      | _ => false
    else if c = '.' then
      match rest with
      | [a, b] => a.isDigit && b.isDigit
      | _ => false
    else false

/-- moneyRgx continuation after two leading digits. -/
def moneyAfter2 : List Char → Bool
  | [] => false
  | c :: rest => if c.isDigit then moneyGroups rest else moneyGroups (c :: rest)

/-- moneyRgx continuation after one leading digit. -/
def moneyAfter1 : List Char → Bool
  | [] => false
  | c :: rest => if c.isDigit then moneyAfter2 rest else moneyGroups (c :: rest)

/-- Money matcher of Format A (moneyRgx of the source): one to three
digits, comma-separated groups of three digits, a period and exactly two
fractional digits. -/
def moneyRgxTest (s : String) : Bool :=
  match s.data with
  | [] => false
  | c :: rest => c.isDigit && moneyAfter1 rest

/-- Character class of the Format-B number matchers: digit, period or
comma. -/
def numTailClass (c : Char) : Bool := c.isDigit || c == '.' || c == ','

/-- Tail of every Format-B number matcher: a nonempty run over the
digit-period-comma class, a comma and exactly two digits. -/
def numTailCheck (l : List Char) : Bool :=
  match l.reverse with
  | b :: a :: c :: rest =>
    a.isDigit && b.isDigit && (c == ',') && (!rest.isEmpty) && rest.all numTailClass
  | _ => false

/-- Negative-amount matcher of parseMandiriPage. -/
def mandiriNegNum (s : String) : Bool :=
  if s.data.head? = some '-' then numTailCheck s.data.tail else false

/-- Positive-amount matcher of parseMandiriPage. -/
def mandiriPosNum (s : String) : Bool :=
  if s.data.head? = some '+' then numTailCheck s.data.tail else false

/-- Unsigned-number matcher of parseMandiriPage. -/
def mandiriUnsignedNum (s : String) : Bool := numTailCheck s.data

/-- Number matcher of parseDirectTransactions: optional plus or minus
sign, then the Format-B number tail. -/
def directNum (s : String) : Bool :=
  if s.data.head? = some '-' then numTailCheck s.data.tail
  else if s.data.head? = some '+' then numTailCheck s.data.tail
  else numTailCheck s.data

/-- Number matcher of parsePatternBased: optional minus sign only. -/
def patternNum (s : String) : Bool :=
  if s.data.head? = some '-' then numTailCheck s.data.tail
  else numTailCheck s.data

/-- One-or-more whitespace: consume a mandatory whitespace character and
all that follow, or fail. -/
def wsPlus? (l : List Char) : Option (List Char) :=
  match l with
  | c :: t => if isWsChar c then some (t.dropWhile isWsChar) else none
  | [] => none

/-- Date matcher of the Mandiri parsers: two digits, whitespace, three
letters, whitespace, four digits. -/
def dateFullTest (s : String) : Bool :=
  match s.data with
  | a :: b :: r =>
    a.isDigit && b.isDigit &&
      (match wsPlus? r with
       | some r1 =>
         (match r1 with
          | x :: y :: z :: r2 =>
            x.isAlpha && y.isAlpha && z.isAlpha &&
              (match wsPlus? r2 with
               | some r3 =>
                 (match r3 with
                  | [p, q, u, v] => p.isDigit && q.isDigit && u.isDigit && v.isDigit
                  | _ => false)
               | none => false)
          | _ => false)
       | none => false)
  | _ => false

/-- Date matcher variant with a duplicated year after a slash. -/
def dateFullDupTest (s : String) : Bool :=
  match s.data with
  | a :: b :: r =>
    a.isDigit && b.isDigit &&
      (match wsPlus? r with
       | some r1 =>
         (match r1 with
          | x :: y :: z :: r2 =>
            x.isAlpha && y.isAlpha && z.isAlpha &&
              (match wsPlus? r2 with
               | some r3 =>
                 (match r3 with
                  | [p, q, u, v, w, p2, q2, u2, v2] =>
                    p.isDigit && q.isDigit && u.isDigit && v.isDigit &&
                    (w == '/') && p2.isDigit && q2.isDigit && u2.isDigit && v2.isDigit
                  | _ => false)
               | none => false)
          | _ => false)
       | none => false)
  | _ => false

/-- Timestamp matcher shared by the Mandiri parsers: HH:MM:SS, whitespace,
WIB. -/
def timeTest (s : String) : Bool :=
  match s.data with
  | a :: b :: c1 :: c :: d :: c2 :: e :: f :: r =>
    a.isDigit && b.isDigit && (c1 == ':') && c.isDigit && d.isDigit &&
    (c2 == ':') && e.isDigit && f.isDigit &&
      (match wsPlus? r with
       | some r1 => r1 == ['W', 'I', 'B']
       | none => false)
  | _ => false

/-- Pure-integer matcher used for the leading row-ordinal cell. -/
def pureIntTest (s : String) : Bool :=
  !s.data.isEmpty && s.data.all Char.isDigit

/-- JS Math.round: round half towards positive infinity. -/
def jsRound (q : JsRat) : Int := (q.add ⟨1, 2⟩).floor

/-- Stable insertion of x into a run already sorted by the JS comparator
cmp: x goes before the first element that compares greater. -/
def insertCmp (cmp : α → α → JsRat) (x : α) : List α → List α
  | [] => [x]
  | y :: ys => if (cmp x y).isNegB then x :: y :: ys else y :: insertCmp cmp x ys

/-- JS Array.prototype.sort with numeric comparator cmp (stable). -/
def sortCmp (cmp : α → α → JsRat) (l : List α) : List α :=
  l.foldl (fun acc x => insertCmp cmp x acc) []

/-- JS description.replace(trailing whitespace-digits pattern, ""):
remove a final run of whitespace, digits and optional whitespace. -/
def stripTrailingNum (s : String) : String :=
  let r := s.data.reverse
  let r1 := r.dropWhile isWsChar
  let ds := r1.takeWhile Char.isDigit
  let r2 := r1.dropWhile Char.isDigit
  if !ds.isEmpty && !(r2.takeWhile isWsChar).isEmpty then
    String.mk (r2.dropWhile isWsChar).reverse
  else s

/-- Conversion of TextItems to PositionedItems, indexing each token with
its array position to model object identity. -/
def toPosAux : Nat → List Item → List PosItem
  | _, [] => []
  | i, it :: rest => { id := i, text := it.str, x := it.x, y := it.y } :: toPosAux (i + 1) rest

/-- items.map of the source, producing positioned items. -/
def toPos (items : List Item) : List PosItem := toPosAux 0 items

/-- Distinct bucket keys in first-insertion order, as iterated by a JS
Map built with push semantics. -/
def collectKeys (f : PosItem → Int) (ps : List PosItem) : List Int :=
  ps.foldl (fun ks it => if f it ∈ ks then ks else ks ++ [f it]) []

/-- Comparator sorting integer bucket keys in descending order,
as (a, b) => b - a does. -/
def keyDescCmp (a b : Int) : JsRat := ⟨b - a, 1⟩

/-- Row key of groupIntoRows: Math.round(y / 2) * 2. -/
def rowKeyOf (it : PosItem) : Int := jsRound it.y.half * 2

/-- groupIntoRows of the source: bucket by rounded y, order buckets by
descending key, keep insertion order inside a bucket. -/
def groupIntoRows (ps : List PosItem) : List (List PosItem) :=
  (sortCmp keyDescCmp (collectKeys rowKeyOf ps)).map
    (fun k => ps.filter (fun it => rowKeyOf it == k))

/-- findHeaderRow of the source: first row whose lowercased cell texts
contain "no" together with "tanggal" or "date". -/
def findHeaderRow (rows : List (List PosItem)) : Option Nat :=
  rows.findIdx? (fun row =>
    let ts := row.map (fun it => jsToLower it.text)
    (ts.contains "no" && ts.contains "tanggal") || (ts.contains "no" && ts.contains "date"))

/-- Description comparator of parseMandiriPage: y descending when rows
differ by more than 5 units, else x ascending. -/
def descCmp (a b : PosItem) : JsRat :=
  if JsRat.blt 5 (a.y.sub b.y).abs then b.y.sub a.y else a.x.sub b.x

/-- Body of the per-row loop of parseMandiriPage; none models the
continue statements. -/
def parseMandiriRow (year : Int) (row : List PosItem) : Option TrxRecord :=
  match row with
  | [] => none
  | first :: _ =>
    if !pureIntTest first.text then none
    else
      match row.find? (fun it => dateFullTest it.text || dateFullDupTest it.text) with
      | none => none
      | some dateItem =>
        let dateText := if jsIncludes dateItem.text "/" then
          (jsSplitChar '/' dateItem.text).headD "" else dateItem.text
        match row.find? (fun it => mandiriNegNum it.text || mandiriPosNum it.text || mandiriUnsignedNum it.text) with
        | none => none
        | some amountItem =>
          let isNeg := jsStartsWith amountItem.text "-"
          let amount := (jsParseFloat (cleanAmount amountItem.text)).map
            (fun q => if isNeg then q.neg else q)
          match (sortCmp (fun a b => b.x.sub a.x) (row.filter
              (fun it => (it.id != amountItem.id) && mandiriUnsignedNum it.text))).head? with
          | none => none
          | some balanceItem =>
            let balance := jsParseFloat (cleanBalance balanceItem.text)
            let descItems := sortCmp descCmp (row.filter (fun it =>
              (it.id != amountItem.id) && (it.id != balanceItem.id) &&
              (it.id != dateItem.id) && !timeTest it.text))
            let description := jsTrim (jsJoin " " (descItems.map (fun it => it.text)))
            let type0 : TrxType := if isNeg then .debit else .credit
            let ty : TrxType := if jsIncludes (jsToLower description) "saldo awal" then .saldo_awal else type0
            some { tahun := some year, tgl := dateText, ket := description, type := ty,
                   mutasi := amount.map JsRat.abs, saldo := balance }

/-- parseMandiriPage of the source (Row Reconstruction Parser). -/
def parseMandiriPage (items : List Item) (year : Int) : List TrxRecord :=
  let posItems := toPos items
  let rows := groupIntoRows posItems
  match findHeaderRow rows with
  | none => []
  | some h => (rows.drop (h + 1)).filterMap (parseMandiriRow year)

/-- Body of the per-date loop of parseDirectTransactions; none models the
continue statements. -/
def parseDirectOne (allItems numbers : List PosItem) (year : Int) (date : PosItem) :
    Option TrxRecord :=
  let related := sortCmp (fun a b => a.x.sub b.x)
    (numbers.filter (fun n => ((n.y.sub date.y).abs).blt 20))
  if related.length < 2 then none
  else
    match related.getLast? with
    | none => none
    | some balanceItem =>
      let amountItem? : Option PosItem :=
        match related.find? (fun n => jsStartsWith n.text "-" || jsStartsWith n.text "+") with
        | some a => some a
        | none => if related.length ≥ 2 then related.get? (related.length - 2) else none
      match amountItem? with
      | none => none
      | some amountItem =>
        let balance := jsParseFloat (cleanBalance balanceItem.text)
        let isNeg := jsStartsWith amountItem.text "-"
        let amount := jsParseFloat (cleanAmount amountItem.text)
        let nearby := allItems.filter (fun it =>
          ((it.y.sub date.y).abs).blt 25 && (it.id != date.id) && (it.id != amountItem.id) &&
          (it.id != balanceItem.id) && !timeTest it.text && !directNum it.text)
        let description := stripTrailingNum (jsTrim (jsJoin " " (nearby.map (fun it => it.text))))
        let ty : TrxType :=
          if jsIncludes (jsToLower description) "saldo awal" then .saldo_awal
          else if isNeg then .debit else .credit
        let dateParts := jsSplitChar ' ' date.text
        let formattedDate := (dateParts.getD 0 "undefined") ++ " " ++ (dateParts.getD 1 "undefined")
        some { tahun := some year, tgl := formattedDate, ket := description, type := ty,
               mutasi := amount, saldo := balance }

/-- parseDirectTransactions of the source (Direct Token Parser). -/
def parseDirectTransactions (items : List Item) (year : Int) : List TrxRecord :=
  let allItems := toPos items
  let dates := allItems.filter (fun it => dateFullTest it.text)
  let numbers := allItems.filter (fun it => directNum it.text)
  dates.filterMap (parseDirectOne allItems numbers year)

/-- Body of the per-line loop of parsePatternBased. -/
def parsePatternLine (year : Int) (line : List PosItem) : Option TrxRecord :=
  match line with
  | [] => none
  | first :: _ =>
    if !pureIntTest first.text then none
    else
      match line.find? (fun it => dateFullTest it.text) with
      | none => none
      | some dateItem =>
        let numberItems := line.filter (fun it => patternNum it.text)
        if numberItems.length < 2 then none
        else
          match numberItems.getLast?, numberItems.get? (numberItems.length - 2) with
          | some balanceItem, some amountItem =>
            let isNeg := jsStartsWith amountItem.text "-"
            let amountValue := jsParseFloat (cleanAmount amountItem.text)
            let balanceValue := jsParseFloat (cleanBalance balanceItem.text)
            let startX := JsRat.maxJ first.x dateItem.x
            let description := jsTrim (jsConcat ((line.filter (fun it =>
              startX.blt it.x && it.x.blt amountItem.x && (it.id != dateItem.id) &&
              !timeTest it.text)).map (fun it => it.text ++ " ")))
            let type0 : TrxType := if isNeg then .debit else .credit
            let ty := if jsIncludes (jsToLower description) "saldo awal" then TrxType.saldo_awal else type0
            some { tahun := some year, tgl := dateItem.text, ket := description, type := ty,
                   mutasi := amountValue, saldo := balanceValue }
          | _, _ => none

/-- parsePatternBased of the source (Pattern-Line Parser). -/
def parsePatternBased (items : List Item) (year : Int) : List TrxRecord :=
  let allText := toPos items
  let keys := collectKeys (fun it => jsRound it.y) allText
  let sortedY := sortCmp keyDescCmp keys
  let lines := sortedY.map (fun k => sortCmp (fun a b => a.x.sub b.x)
    (allText.filter (fun it => jsRound it.y == k)))
  lines.filterMap (parsePatternLine year)

/-- Per-page strategy selection of parseMandiriStatement: the Row
Reconstruction result when nonempty, else the Direct Token result when
nonempty, else the Pattern-Line result. -/
def parseMandiriPageRecords (items : List Item) (year : Int) : List TrxRecord :=
  let standardRecs := parseMandiriPage items year
  if standardRecs.length > 0 then standardRecs
  else
    let directRecs := parseDirectTransactions items year
    if directRecs.length > 0 then directRecs
    else parsePatternBased items year

/-- End-of-table markers of parseBCAItems (checked with toLowerCase and
includes). -/
def endMarkerTest (s : String) : Bool :=
  jsIncludes (jsToLower s) "saldo awal :" || jsIncludes (jsToLower s) "bersambung ke halaman"

/-- Mutable per-transaction state of the inner while loop of
parseBCAItems. -/
structure BCASt where
  type : TrxType
  mutasi : Option JsRat
  saldo : Option JsRat
  detail : List String
  found : Bool
deriving DecidableEq, Repr

/-- Inner while loop of parseBCAItems, scanning from index idx for the
amount and the balance of the current record. The error value models the
TypeError thrown by the unguarded items[currentIdx + 2].str access when
currentIdx + 1 < items.length but currentIdx + 2 = items.length. Each
iteration advances idx, so fuel at items.length + 1 never runs out. -/
def bcaInner : Nat → List String → Nat → BCASt → Except String (Nat × BCASt)
  | 0, _, idx, st => .ok (idx, st)
  | fuel + 1, items, idx, st =>
    if idx < items.length then
      let nextItem := items.getD idx ""
      if dateRgxTest nextItem then .ok (idx, st)
      else
        let st1 := if !st.found && !moneyRgxTest nextItem then
          { st with detail := st.detail ++ [nextItem] } else st
        if moneyRgxTest nextItem then
          let amount := bcaAmount nextItem
          if idx + 1 < items.length then
            if idx + 2 < items.length then
              if items.getD (idx + 2) "" == "DB" then
                let st2 := { st1 with type := .debit, mutasi := amount, found := true }
                if endMarkerTest nextItem then .ok (idx + 2, st2)
                else bcaInner fuel items (idx + 2) st2
              else
                if !st1.found then
                  let st2 := { st1 with type := .credit, mutasi := amount, found := true }
                  if endMarkerTest nextItem then .ok (idx + 1, st2)
                  else bcaInner fuel items (idx + 1) st2
                else .ok (idx + 1, { st1 with saldo := amount })
            else .error "TypeError: Cannot read properties of undefined"
          else
            if !st1.found then
              let st2 := { st1 with type := .credit, mutasi := amount, found := true }
              if endMarkerTest nextItem then .ok (idx + 1, st2)
              else bcaInner fuel items (idx + 1) st2
            else .ok (idx + 1, { st1 with saldo := amount })
        else
          if endMarkerTest nextItem then .ok (idx + 1, st1)
          else bcaInner fuel items (idx + 1) st1
    else .ok (idx, st)

/-- txrecs.push(currentRecord) guarded by currentRecord && currentRecord.tgl. -/
def pushCur : Option TrxRecord → List TrxRecord
  | none => []
  | some c => if c.tgl != "" then [c] else []

/-- Outer while loop of parseBCAItems. cur is currentRecord, acc is
txrecs. Each iteration advances idx, so fuel at items.length + 1 never
runs out. -/
def bcaOuter : Nat → List String → Nat → Option TrxRecord → List TrxRecord → Option Int →
    Except String (List TrxRecord)
  | 0, _, _, cur, acc, _ => .ok (acc ++ pushCur cur)
  | fuel + 1, items, idx, cur, acc, tahun =>
    if idx < items.length then
      let item := items.getD idx ""
      if endMarkerTest item then .ok (acc ++ pushCur cur)
      else if dateRgxTest item then
        let acc1 := acc ++ pushCur cur
        let rec0 : TrxRecord := { tahun := tahun, tgl := item, ket := "", type := .credit,
                                  mutasi := some 0, saldo := some 0 }
        let idx1 := idx + 1
        let rec1 := if idx1 < items.length then { rec0 with ket := items.getD idx1 "" } else rec0
        let idx2 := if idx1 < items.length then idx1 + 1 else idx1
        let idx3 := if idx2 < items.length && items.getD idx2 "" == "CBG" then idx2 + 2 else idx2
        match bcaInner (items.length + 1) items idx3
            { type := rec1.type, mutasi := rec1.mutasi, saldo := rec1.saldo,
              detail := [], found := false } with
        | .error e => .error e
        | .ok (idx4, st) =>
          let ket1 := if st.detail.isEmpty then rec1.ket
            else if rec1.ket != "" then rec1.ket ++ " " ++ jsTrim (jsJoin " " st.detail)
            else jsTrim (jsJoin " " st.detail)
          let rec2 := { rec1 with
            ket := ket1, type := st.type, mutasi := st.mutasi, saldo := st.saldo }
          let rec3 := if jsToUpper rec2.ket == "SALDO AWAL" then
            { rec2 with type := .saldo_awal } else rec2
          bcaOuter fuel items idx4 (some rec3) acc1 tahun
      else
        let cur1 := match cur with
          | some c =>
            if !dateRgxTest item && !moneyRgxTest item && item != "DB" && item != "CR" then
              some { c with ket := c.ket ++ " " ++ item }
            else some c
          | none => none
        bcaOuter fuel items (idx + 1) cur1 acc tahun
    else .ok (acc ++ pushCur cur)

/-- parseBCAItems of the source (Sequential Statement Parser, Format A).
Only the str field of the TextItems is ever read, so the token list is a
list of strings. The error value models a thrown TypeError. -/
def parseBCAItems (items : List String) : Except String (List TrxRecord) :=
  match List.findIdx? (fun s => s == "PERIODE") items with
  | none => .ok []
  | some periodeIdx =>
    let periode := (((items.drop (periodeIdx + 1)).take 9).find? (fun s => jsIncludes s "20")).getD ""
    let periodParts := jsSplitChar ' ' (jsTrim periode)
    let tahun := jsParseInt (periodParts.getLastD "")
    match List.findIdx? (fun s => s == "TANGGAL") items with
    | none => .ok []
    | some tanggalHeaderIdx =>
      let ketFound := items.enum.any (fun p =>
        decide ((p.1 : Int) > (tanggalHeaderIdx : Int) - 5) &&
        decide ((p.1 : Int) < (tanggalHeaderIdx : Int) + 5) && (p.2 == "KETERANGAN"))
      if !ketFound then .ok []
      else
        match (items.drop (tanggalHeaderIdx + 1)).findIdx? dateRgxTest with
        | none => .ok []
        | some rel => bcaOuter (items.length + 1) items (tanggalHeaderIdx + 1 + rel) none [] tahun

instance : DecidableEq (Except String (List TrxRecord)) := fun a b =>
  match a, b with
  | .ok x, .ok y =>
    if h : x = y then .isTrue (by rw [h]) else .isFalse (fun hc => h (Except.ok.inj hc))
  | .error x, .error y =>
    if h : x = y then .isTrue (by rw [h]) else .isFalse (fun hc => h (Except.error.inj hc))
  | .ok _, .error _ => .isFalse (fun hc => Except.noConfusion hc)
  | .error _, .ok _ => .isFalse (fun hc => Except.noConfusion hc)

theorem mem_insertCmp (cmp : α → α → JsRat) (x a : α) (l : List α) :
    a ∈ insertCmp cmp x l ↔ a = x ∨ a ∈ l := by
  induction l with
  | nil => simp [insertCmp]
  | cons y ys ih =>
    simp only [insertCmp]
    split
    · simp [List.mem_cons]
    · simp only [List.mem_cons, ih]
      tauto

theorem mem_sortCmp_aux (cmp : α → α → JsRat) (a : α) (l acc : List α) :
    a ∈ l.foldl (fun acc x => insertCmp cmp x acc) acc ↔ a ∈ acc ∨ a ∈ l := by
  induction l generalizing acc with
  | nil => simp
  | cons y ys ih =>
    simp only [List.foldl_cons, ih, mem_insertCmp, List.mem_cons]
    tauto

theorem mem_sortCmp (cmp : α → α → JsRat) (a : α) (l : List α) :
    a ∈ sortCmp cmp l ↔ a ∈ l := by
  simp [sortCmp, mem_sortCmp_aux]

theorem head?_mem (l : List α) (a : α) (h : l.head? = some a) : a ∈ l := by
  cases l <;> simp_all

theorem getLast?_mem (l : List α) (a : α) (h : l.getLast? = some a) : a ∈ l := by
  induction l with
  | nil => simp at h
  | cons y ys ih =>
    cases ys with
    | nil =>
      simp only [List.getLast?_singleton, Option.some.injEq] at h
      simp [h]
    | cons z zs =>
      rw [List.getLast?_cons_cons] at h
      exact List.mem_cons_of_mem _ (ih h)

theorem toPosAux_mem (items : List Item) (i : Nat) (p : PosItem)
    (h : p ∈ toPosAux i items) : ∃ t ∈ items, p.text = t.str := by
  induction items generalizing i with
  | nil => simp [toPosAux] at h
  | cons it rest ih =>
    simp only [toPosAux, List.mem_cons] at h
    rcases h with h | h
    · exact ⟨it, List.mem_cons_self _ _, by rw [h]⟩
    · obtain ⟨t, ht, he⟩ := ih _ h
      exact ⟨t, List.mem_cons_of_mem _ ht, he⟩

theorem toPos_mem (items : List Item) (p : PosItem) (h : p ∈ toPos items) :
    ∃ t ∈ items, p.text = t.str := toPosAux_mem items 0 p h

theorem mem_of_mem_groupIntoRows (ps : List PosItem) (row : List PosItem) (b : PosItem)
    (h1 : row ∈ groupIntoRows ps) (h2 : b ∈ row) : b ∈ ps := by
  unfold groupIntoRows at h1
  obtain ⟨k, _, hk⟩ := List.mem_map.mp h1
  rw [← hk] at h2
  exact (List.mem_filter.mp h2).1

theorem jsIncludes_self (s : String) : jsIncludes s s = true := by
  simp [jsIncludes, List.infix_refl]

theorem JsRat.mkRed_num_nonneg (n : Int) (d : Nat) (h : 0 ≤ n) :
    0 ≤ (JsRat.mkRed n d).num := by
  simp only [JsRat.mkRed]
  split
  · exact h
  · exact Int.ediv_nonneg h (by positivity)

theorem JsRat.mkRed_den_pos (n : Int) (d : Nat) (h : 0 < d) :
    0 < (JsRat.mkRed n d).den := by
  simp only [JsRat.mkRed]
  split
  · exact h
  · rename_i hg
    exact Nat.div_pos (Nat.le_of_dvd h (Nat.gcd_dvd_right _ _)) (by omega)

theorem JsRat.add_num_nonneg (a b : JsRat) (ha : 0 ≤ a.num) (hb : 0 ≤ b.num) :
    0 ≤ (a.add b).num := by
  unfold JsRat.add
  exact JsRat.mkRed_num_nonneg _ _
    (add_nonneg (mul_nonneg ha (Int.natCast_nonneg _)) (mul_nonneg hb (Int.natCast_nonneg _)))

theorem JsRat.add_den_pos (a b : JsRat) (ha : 0 < a.den) (hb : 0 < b.den) :
    0 < (a.add b).den := by
  unfold JsRat.add
  exact JsRat.mkRed_den_pos _ _ (Nat.mul_pos ha hb)

theorem jsParseFloatCore_nonneg (l : List Char) (q : JsRat)
    (h : jsParseFloatCore false l = some q) : 0 ≤ q.num ∧ 0 < q.den := by
  simp only [jsParseFloatCore] at h
  split at h <;> split at h
  · exact absurd h (by simp)
  · simp only [Bool.false_eq_true, if_false, Option.some.injEq] at h
    rw [← h]
    constructor
    · exact JsRat.add_num_nonneg _ _ (Int.natCast_nonneg _)
        (JsRat.mkRed_num_nonneg _ _ (Int.natCast_nonneg _))
    · exact JsRat.add_den_pos _ _ Nat.one_pos (JsRat.mkRed_den_pos _ _ (Nat.pow_pos (show 0 < 10 by omega)))
  · exact absurd h (by simp)
  · simp only [Bool.false_eq_true, if_false, Option.some.injEq] at h
    rw [← h]
    constructor
    · exact JsRat.add_num_nonneg _ _ (Int.natCast_nonneg _)
        (JsRat.mkRed_num_nonneg _ _ (Int.natCast_nonneg _))
    · exact JsRat.add_den_pos _ _ Nat.one_pos (JsRat.mkRed_den_pos _ _ (Nat.pow_pos (show 0 < 10 by omega)))

theorem jsParseFloatCore_den_pos (neg : Bool) (l : List Char) (q : JsRat)
    (h : jsParseFloatCore neg l = some q) : 0 < q.den := by
  simp only [jsParseFloatCore] at h
  split at h <;> split at h
  · exact absurd h (by simp)
  · simp only [Option.some.injEq] at h
    rw [← h]
    split
    · exact JsRat.add_den_pos _ _ Nat.one_pos
        (JsRat.mkRed_den_pos _ _ (Nat.pow_pos (show 0 < 10 by omega)))
    · exact JsRat.add_den_pos _ _ Nat.one_pos
        (JsRat.mkRed_den_pos _ _ (Nat.pow_pos (show 0 < 10 by omega)))
  · exact absurd h (by simp)
  · simp only [Option.some.injEq] at h
    rw [← h]
    split
    · exact JsRat.add_den_pos _ _ Nat.one_pos
        (JsRat.mkRed_den_pos _ _ (Nat.pow_pos (show 0 < 10 by omega)))
    · exact JsRat.add_den_pos _ _ Nat.one_pos
        (JsRat.mkRed_den_pos _ _ (Nat.pow_pos (show 0 < 10 by omega)))

theorem jsParseFloat_nonneg (s : String) (q : JsRat) (hno : '-' ∉ s.data)
    (h : jsParseFloat s = some q) : 0 ≤ q.num ∧ 0 < q.den := by
  simp only [jsParseFloat] at h
  split at h
  · rename_i hh
    exact absurd ((List.dropWhile_sublist _).mem (head?_mem _ _ hh)) hno
  · split at h
    · exact jsParseFloatCore_nonneg _ _ h
    · exact jsParseFloatCore_nonneg _ _ h

theorem jsParseFloat_den_pos (s : String) (q : JsRat)
    (h : jsParseFloat s = some q) : 0 < q.den := by
  simp only [jsParseFloat] at h
  split at h
  · exact jsParseFloatCore_den_pos _ _ _ h
  · split at h
    · exact jsParseFloatCore_den_pos _ _ _ h
    · exact jsParseFloatCore_den_pos _ _ _ h

theorem cleanAmount_no_neg (s : String) : '-' ∉ (cleanAmount s).data := by
  intro hm
  have := (List.mem_filter.mp hm).2
  simp at this

theorem cleanAmount_nonneg (s : String) (q : JsRat)
    (h : jsParseFloat (cleanAmount s) = some q) : 0 ≤ q.num ∧ 0 < q.den :=
  jsParseFloat_nonneg _ _ (cleanAmount_no_neg s) h

theorem parseMandiriRow_inv (year : Int) (row : List PosItem) (r : TrxRecord)
    (h : parseMandiriRow year row = some r) :
    (∃ b ∈ row, mandiriUnsignedNum b.text = true ∧
      r.saldo = jsParseFloat (cleanBalance b.text)) ∧
    (jsIncludes (jsToLower r.ket) "saldo awal" = true → r.type = TrxType.saldo_awal) ∧
    (∀ q : JsRat, r.mutasi = some q → 0 ≤ q.num ∧ 0 < q.den) := by
  simp only [parseMandiriRow] at h
  split at h
  · exact absurd h (by simp)
  · split at h
    · exact absurd h (by simp)
    · split at h
      · exact absurd h (by simp)
      · split at h
        · exact absurd h (by simp)
        · rename_i dateItem hdate amountItem hamount
          split at h
          · exact absurd h (by simp)
          · rename_i balanceItem hbal
            simp only [Option.some.injEq] at h
            subst h
            have hbm := head?_mem _ _ hbal
            rw [mem_sortCmp] at hbm
            have hbf := List.mem_filter.mp hbm
            have hbp : mandiriUnsignedNum balanceItem.text = true := by
              have := hbf.2
              simp only [Bool.and_eq_true] at this
              exact this.2
            refine ⟨⟨balanceItem, hbf.1, hbp, rfl⟩, ?_, ?_⟩
            · intro hi
              simp only [hi, if_true]
            · intro q hq
              simp only [Option.map_eq_some'] at hq
              obtain ⟨q1, hq1, hq2⟩ := hq
              obtain ⟨q0, hq0, hq3⟩ := hq1
              have hden : q1.den = q0.den := by
                rw [← hq3]
                split
                · rfl
                · rfl
              constructor
              · rw [← hq2]
                exact Int.natCast_nonneg _
              · rw [← hq2]
                show 0 < q1.den
                rw [hden]
                exact jsParseFloat_den_pos _ _ hq0

theorem parseDirectOne_inv (allItems numbers : List PosItem) (year : Int) (date : PosItem)
    (r : TrxRecord) (h : parseDirectOne allItems numbers year date = some r) :
    (∃ b ∈ numbers, r.saldo = jsParseFloat (cleanBalance b.text)) ∧
    (jsIncludes (jsToLower r.ket) "saldo awal" = true → r.type = TrxType.saldo_awal) ∧
    (∀ q : JsRat, r.mutasi = some q → 0 ≤ q.num ∧ 0 < q.den) := by
  simp only [parseDirectOne] at h
  split at h
  · exact absurd h (by simp)
  · split at h
    · exact absurd h (by simp)
    · rename_i balanceItem hbal
      split at h
      · exact absurd h (by simp)
      · rename_i amountItem hamount
        simp only [Option.some.injEq] at h
        subst h
        have hbm := getLast?_mem _ _ hbal
        rw [mem_sortCmp] at hbm
        have hbf := List.mem_filter.mp hbm
        refine ⟨⟨balanceItem, hbf.1, rfl⟩, ?_, ?_⟩
        · intro hi
          simp only [hi, if_true]
        · intro q hq
          exact cleanAmount_nonneg _ _ hq

theorem parsePatternLine_inv (year : Int) (line : List PosItem) (r : TrxRecord)
    (h : parsePatternLine year line = some r) :
    (∃ b ∈ line, patternNum b.text = true ∧
      r.saldo = jsParseFloat (cleanBalance b.text)) ∧
    (jsIncludes (jsToLower r.ket) "saldo awal" = true → r.type = TrxType.saldo_awal) ∧
    (∀ q : JsRat, r.mutasi = some q → 0 ≤ q.num ∧ 0 < q.den) := by
  simp only [parsePatternLine] at h
  split at h
  · exact absurd h (by simp)
  · split at h
    · exact absurd h (by simp)
    · split at h
      · exact absurd h (by simp)
      · rename_i dateItem hdate
        split at h
        · exact absurd h (by simp)
        · split at h
          · rename_i balanceItem amountItem hbal hamount
            simp only [Option.some.injEq] at h
            subst h
            have hbm := getLast?_mem _ _ hbal
            have hbf := List.mem_filter.mp hbm
            refine ⟨⟨balanceItem, hbf.1, hbf.2, rfl⟩, ?_, ?_⟩
            · intro hi
              simp only [hi, if_true]
            · intro q hq
              exact cleanAmount_nonneg _ _ hq
          · exact absurd h (by simp)

theorem parseMandiriPage_inv (items : List Item) (year : Int) (r : TrxRecord)
    (h : r ∈ parseMandiriPage items year) :
    (∃ t ∈ items, mandiriUnsignedNum t.str = true ∧
      r.saldo = jsParseFloat (cleanBalance t.str)) ∧
    (jsIncludes (jsToLower r.ket) "saldo awal" = true → r.type = TrxType.saldo_awal) ∧
    (∀ q : JsRat, r.mutasi = some q → 0 ≤ q.num ∧ 0 < q.den) := by
  simp only [parseMandiriPage] at h
  split at h
  · exact absurd h (by simp)
  · obtain ⟨row, hrow, hr⟩ := List.mem_filterMap.mp h
    obtain ⟨⟨b, hb, hbp, hbs⟩, h2, h3⟩ := parseMandiriRow_inv _ _ _ hr
    have hbps : b ∈ toPos items :=
      mem_of_mem_groupIntoRows _ _ _ (List.mem_of_mem_drop hrow) hb
    obtain ⟨t, ht, hteq⟩ := toPos_mem _ _ hbps
    exact ⟨⟨t, ht, by rw [← hteq]; exact hbp, by rw [← hteq]; exact hbs⟩, h2, h3⟩

theorem parseDirectTransactions_inv (items : List Item) (year : Int) (r : TrxRecord)
    (h : r ∈ parseDirectTransactions items year) :
    (∃ t ∈ items, directNum t.str = true ∧
      r.saldo = jsParseFloat (cleanBalance t.str)) ∧
    (jsIncludes (jsToLower r.ket) "saldo awal" = true → r.type = TrxType.saldo_awal) ∧
    (∀ q : JsRat, r.mutasi = some q → 0 ≤ q.num ∧ 0 < q.den) := by
  simp only [parseDirectTransactions] at h
  obtain ⟨date, hdate, hr⟩ := List.mem_filterMap.mp h
  obtain ⟨⟨b, hb, hbs⟩, h2, h3⟩ := parseDirectOne_inv _ _ _ _ _ hr
  have hbf := List.mem_filter.mp hb
  obtain ⟨t, ht, hteq⟩ := toPos_mem _ _ hbf.1
  exact ⟨⟨t, ht, by rw [← hteq]; exact hbf.2, by rw [← hteq]; exact hbs⟩, h2, h3⟩

theorem parsePatternBased_inv (items : List Item) (year : Int) (r : TrxRecord)
    (h : r ∈ parsePatternBased items year) :
    (∃ t ∈ items, patternNum t.str = true ∧
      r.saldo = jsParseFloat (cleanBalance t.str)) ∧
    (jsIncludes (jsToLower r.ket) "saldo awal" = true → r.type = TrxType.saldo_awal) ∧
    (∀ q : JsRat, r.mutasi = some q → 0 ≤ q.num ∧ 0 < q.den) := by
  simp only [parsePatternBased] at h
  obtain ⟨line, hline, hr⟩ := List.mem_filterMap.mp h
  obtain ⟨⟨b, hb, hbp, hbs⟩, h2, h3⟩ := parsePatternLine_inv _ _ _ hr
  obtain ⟨k, _, hk⟩ := List.mem_map.mp hline
  rw [← hk, mem_sortCmp] at hb
  have hbf := List.mem_filter.mp hb
  obtain ⟨t, ht, hteq⟩ := toPos_mem _ _ hbf.1
  exact ⟨⟨t, ht, by rw [← hteq]; exact hbp, by rw [← hteq]; exact hbs⟩, h2, h3⟩

theorem pushCur_mem (cur : Option TrxRecord) (r : TrxRecord) (h : r ∈ pushCur cur) :
    cur = some r := by
  cases cur with
  | none => simp [pushCur] at h
  | some c =>
    simp only [pushCur] at h
    split at h
    · simp only [List.mem_singleton] at h
      rw [h]
    · simp at h

theorem bcaOuter_inv (items : List String) (tahun : Option Int) :
    ∀ (fuel idx : Nat) (cur : Option TrxRecord) (acc recs : List TrxRecord),
    bcaOuter fuel items idx cur acc tahun = .ok recs →
    (∀ r ∈ acc, r.tahun = tahun ∧ dateRgxTest r.tgl = true) →
    (∀ c, cur = some c → c.tahun = tahun ∧ dateRgxTest c.tgl = true) →
    ∀ r ∈ recs, r.tahun = tahun ∧ dateRgxTest r.tgl = true := by
  intro fuel
  induction fuel with
  | zero =>
    intro idx cur acc recs h hacc hcur r hr
    simp only [bcaOuter, Except.ok.injEq] at h
    subst h
    rcases List.mem_append.mp hr with hx | hx
    · exact hacc r hx
    · exact hcur r (pushCur_mem _ _ hx)
  | succ fuel ih =>
    intro idx cur acc recs h hacc hcur r hr
    simp only [bcaOuter] at h
    split at h
    · split at h
      · simp only [Except.ok.injEq] at h
        subst h
        rcases List.mem_append.mp hr with hx | hx
        · exact hacc r hx
        · exact hcur r (pushCur_mem _ _ hx)
      · split at h
        · rename_i hdate
          split at h
          · exact absurd h (by simp)
          · rename_i idx4 st hinner
            refine ih _ _ _ _ h ?_ ?_ r hr
            · intro r2 hr2
              rcases List.mem_append.mp hr2 with hx | hx
              · exact hacc r2 hx
              · exact hcur r2 (pushCur_mem _ _ hx)
            · intro c hc
              rw [← Option.some.inj hc]
              constructor
              · simp [apply_ite TrxRecord.tahun]
              · simpa [apply_ite TrxRecord.tgl] using hdate
        · refine ih _ _ _ _ h hacc ?_ r hr
          intro c hc
          cases cur with
          | none => simp at hc
          | some c0 =>
            have h0 := hcur c0 rfl
            simp only [] at hc
            split at hc
            · rw [← Option.some.inj hc]
              exact h0
            · rw [← Option.some.inj hc]
              exact h0
    · simp only [Except.ok.injEq] at h
      subst h
      rcases List.mem_append.mp hr with hx | hx
      · exact hacc r hx
      · exact hcur r (pushCur_mem _ _ hx)

/-- Input of the C10 witness: PERIODE is present but no token of the
lookahead window contains "20". -/
def c10items : List String := ["PERIODE", "AAA", "TANGGAL", "KETERANGAN", "01/01", "DESC"]

/-- Record produced on c10items: the year is NaN. -/
def c10rec : TrxRecord :=
  { tahun := none, tgl := "01/01", ket := "DESC", type := TrxType.credit,
    mutasi := some 0, saldo := some 0 }

/-- Claim C10: if the PERIODE anchor is present but none of the next nine
tokens contains the substring "20", the Sequential Statement Parser
proceeds without substituting a default year and every emitted record
carries a NaN year (the result of parsing an empty period string). -/
theorem claim10_theorem (items : List String) (p : Nat) (recs : List TrxRecord)
    (hp : List.findIdx? (fun s => s == "PERIODE") items = some p)
    (hw : ∀ s ∈ (items.drop (p + 1)).take 9, jsIncludes s "20" = false)
    (hok : parseBCAItems items = .ok recs) :
    ∀ r ∈ recs, r.tahun = none := by
  have hfind : ((items.drop (p + 1)).take 9).find? (fun s => jsIncludes s "20") = none := by
    rw [List.find?_eq_none]
    intro x hx
    simp [hw x hx]
  simp only [parseBCAItems, hp, hfind, Option.getD_none] at hok
  split at hok
  · simp only [Except.ok.injEq] at hok
    subst hok
    simp
  · split at hok
    · simp only [Except.ok.injEq] at hok
      subst hok
      simp
    · split at hok
      · simp only [Except.ok.injEq] at hok
        subst hok
        simp
      · intro r hr
        have hI := bcaOuter_inv items _ _ _ _ _ _ hok (by simp) (by simp) r hr
        rw [hI.1]
        decide

/-- Witness for C10: a concrete page satisfying the hypotheses, with a
record actually emitted and carrying a NaN year. -/
theorem claim10_witness :
    parseBCAItems c10items = .ok [c10rec] ∧
    (∀ s ∈ (c10items.drop 1).take 9, jsIncludes s "20" = false) ∧
    c10rec.tahun = none :=
  ⟨by decide, by decide,
    claim10_theorem c10items 0 [c10rec] (by decide) (by decide) (by decide) c10rec (by simp)⟩

/-- Input of the C5 counterexample: a well-formed Format-B page for the
Row Reconstruction Parser. -/
def c5items : List Item := [
  { str := "No", x := 10, y := 100 }, { str := "Tanggal", x := 30, y := 100 },
  { str := "1", x := 10, y := 90 }, { str := "01 Jan 2025", x := 30, y := 90 },
  { str := "-2.000,00", x := 60, y := 90 }, { str := "9.000,00", x := 80, y := 90 }]

/-- Record produced on c5items: its date text keeps the month name and
the year. -/
def c5rec : TrxRecord :=
  { tahun := some 2025, tgl := "01 Jan 2025", ket := "1", type := TrxType.debit,
    mutasi := some 2000, saldo := some 9000 }

/-- Counterexample to C5: the Row Reconstruction Parser emits a record
whose dateDayMonth field is "01 Jan 2025", which does not match the
DD/MM pattern. -/
theorem claim5_cex :
    parseMandiriPage c5items 2025 = [c5rec] ∧
    c5rec.tgl = "01 Jan 2025" ∧ dateRgxTest c5rec.tgl = false :=
  ⟨by decide, rfl, by decide⟩

/-- Claim C5 (amended): every record emitted by the Sequential Statement
Parser has a dateDayMonth field matching DD/MM; the Format-B strategies
do not guarantee this. -/
theorem claim5_theorem (items : List String) (recs : List TrxRecord)
    (hok : parseBCAItems items = .ok recs) :
    ∀ r ∈ recs, dateRgxTest r.tgl = true := by
  simp only [parseBCAItems] at hok
  split at hok
  · simp only [Except.ok.injEq] at hok
    subst hok
    simp
  · split at hok
    · simp only [Except.ok.injEq] at hok
      subst hok
      simp
    · split at hok
      · simp only [Except.ok.injEq] at hok
        subst hok
        simp
      · split at hok
        · simp only [Except.ok.injEq] at hok
          subst hok
          simp
        · intro r hr
          exact (bcaOuter_inv items _ _ _ _ _ _ hok (by simp) (by simp) r hr).2

/-- Input of the C5 witness. -/
def c5witems : List String := ["PERIODE", "2025", "TANGGAL", "KETERANGAN", "01/01", "DESC"]

/-- Record produced on c5witems. -/
def c5wrec : TrxRecord :=
  { tahun := some 2025, tgl := "01/01", ket := "DESC", type := TrxType.credit,
    mutasi := some 0, saldo := some 0 }

/-- Witness for C5: the amended claim applied to a concrete page. -/
theorem claim5_witness :
    parseBCAItems c5witems = .ok [c5wrec] ∧ dateRgxTest c5wrec.tgl = true :=
  ⟨by decide, claim5_theorem c5witems [c5wrec] (by decide) c5wrec (by simp)⟩

/-- Input of the C1 counterexample: a Format-A page whose transaction
region contains no money token at all. -/
def c1items : List String := ["PERIODE", "2025", "TANGGAL", "KETERANGAN", "01/01", "TEST"]

/-- Record emitted on c1items although no balance token exists: the
balance is the 0.0 default of the freshly initialised record. -/
def c1rec : TrxRecord :=
  { tahun := some 2025, tgl := "01/01", ket := "TEST", type := TrxType.credit,
    mutasi := some 0, saldo := some 0 }

/-- Counterexample to C1: the Sequential Statement Parser emits a record
although the input contains no money token whatsoever, with the default
balance 0 that was never read from a token. -/
theorem claim1_cex :
    parseBCAItems c1items = .ok [c1rec] ∧
    c1items.all (fun s => !moneyRgxTest s) = true ∧
    c1rec.saldo = some 0 :=
  ⟨by decide, by decide, rfl⟩

/-- Claim C1 (amended): in the three Format-B strategies, the balance of
every emitted record is parsed directly from a token of the page that
matches the number pattern of the strategy, and a candidate with no such
token is discarded; the Sequential Statement Parser instead emits the
candidate with the default balance 0 when no balance token is found. -/
theorem claim1_theorem (items : List Item) (year : Int) :
    (∀ r ∈ parseMandiriPage items year, ∃ t ∈ items, mandiriUnsignedNum t.str = true ∧
      r.saldo = jsParseFloat (cleanBalance t.str)) ∧
    (∀ r ∈ parseDirectTransactions items year, ∃ t ∈ items, directNum t.str = true ∧
      r.saldo = jsParseFloat (cleanBalance t.str)) ∧
    (∀ r ∈ parsePatternBased items year, ∃ t ∈ items, patternNum t.str = true ∧
      r.saldo = jsParseFloat (cleanBalance t.str)) :=
  ⟨fun r hr => (parseMandiriPage_inv items year r hr).1,
   fun r hr => (parseDirectTransactions_inv items year r hr).1,
   fun r hr => (parsePatternBased_inv items year r hr).1⟩

/-- Input of the C1 witness. -/
def c1witems : List Item := [
  { str := "No", x := 10, y := 100 }, { str := "Tanggal", x := 30, y := 100 },
  { str := "1", x := 10, y := 90 }, { str := "01 Jan 2025", x := 30, y := 90 },
  { str := "-2.500,00", x := 60, y := 90 }, { str := "7.500,00", x := 80, y := 90 }]

/-- Record produced on c1witems. -/
def c1wrec : TrxRecord :=
  { tahun := some 2025, tgl := "01 Jan 2025", ket := "1", type := TrxType.debit,
    mutasi := some 2500, saldo := some 7500 }

/-- Witness for C1: the amended claim applied to a concrete page. -/
theorem claim1_witness :
    c1wrec ∈ parseMandiriPage c1witems 2025 ∧
    (∃ t ∈ c1witems, mandiriUnsignedNum t.str = true ∧
      c1wrec.saldo = jsParseFloat (cleanBalance t.str)) :=
  ⟨by decide, (claim1_theorem c1witems 2025).1 c1wrec (by decide)⟩

/-- Input on which parseBCAItems throws: the money token is followed by
exactly one further token, so the debit-marker lookahead at index + 2
reads past the end of the array. -/
def c2items : List String := ["PERIODE", "2025", "TANGGAL", "KETERANGAN",
  "01/01", "X", "50,000.00", "Y"]

/-- Claim C2 (code bug): parseBCAItems throws a TypeError on c2items.
The guard of the debit-marker check bounds currentIdx + 1 but the access
reads items[currentIdx + 2].str, which is undefined here. -/
theorem claim2_theorem :
    parseBCAItems c2items = .error "TypeError: Cannot read properties of undefined" := by
  decide

/-- The token sequence of the specification test for the Sequential
Statement Parser, preceded by valid period and header anchors. -/
def c3items : List String := ["PERIODE", "JANUARI 2025", "TANGGAL", "KETERANGAN",
  "01/01", "TARIKAN ATM", "50,000.00", "DB", "950,000.00"]

/-- The record the code emits on c3items: classified credit, because the
debit check reads the token two positions after the money token (the
balance) instead of the adjacent "DB" marker. -/
def c3rec : TrxRecord :=
  { tahun := some 2025, tgl := "01/01", ket := "TARIKAN ATM", type := TrxType.credit,
    mutasi := some 50000, saldo := some 950000 }

/-- Claim C3 (code bug): on the specification test sequence the code
yields amount 50000 and balance 950000 as claimed but kind credit, not
debit, since items[i + 2] is "950,000.00" and not "DB". -/
theorem claim3_theorem :
    parseBCAItems c3items = .ok [c3rec] ∧ c3rec.type = TrxType.credit :=
  ⟨by decide, rfl⟩

/-- Input of the C4 counterexample: one date with a minus-signed amount
token and a balance token on the same line. -/
def c4items : List Item := [
  { str := "01 Jan 2025", x := 10, y := 100 }, { str := "-1.000,00", x := 50, y := 100 },
  { str := "5.000,00", x := 90, y := 100 }, { str := "DESC", x := 30, y := 100 }]

/-- Record produced on c4items: the amount is stored as the positive
magnitude 1000 although the amount token begins with a minus sign. -/
def c4rec : TrxRecord :=
  { tahun := some 2025, tgl := "01 Jan", ket := "DESC", type := TrxType.debit,
    mutasi := some 1000, saldo := some 5000 }

/-- Counterexample to C4: the Direct Token Parser strips the sign, so the
record built from the minus-signed token "-1.000,00" stores the positive
amount 1000, not the signed value. -/
theorem claim4_cex :
    parseDirectTransactions c4items 2025 = [c4rec] ∧
    jsStartsWith "-1.000,00" "-" = true ∧
    c4rec.mutasi = some 1000 ∧ c4rec.mutasi ≠ some ((1000 : JsRat).neg) :=
  ⟨by decide, by decide, rfl, by decide⟩

/-- Claim C4 (amended): the Direct Token Parser also stores the amount as
a magnitude, exactly like the Row Reconstruction and Pattern-Line
parsers: every stored amount of the three Format-B strategies is a
nonnegative rational, and only the kind field carries the sign. -/
theorem claim4_theorem (items : List Item) (year : Int) (r : TrxRecord) (q : JsRat)
    (hmem : r ∈ parseDirectTransactions items year ∨ r ∈ parseMandiriPage items year ∨
      r ∈ parsePatternBased items year)
    (hq : r.mutasi = some q) : 0 ≤ q.num ∧ 0 < q.den := by
  rcases hmem with h | h | h
  · exact (parseDirectTransactions_inv _ _ _ h).2.2 q hq
  · exact (parseMandiriPage_inv _ _ _ h).2.2 q hq
  · exact (parsePatternBased_inv _ _ _ h).2.2 q hq

/-- Input of the C4 witness. -/
def c4witems : List Item := [
  { str := "02 Feb 2025", x := 10, y := 100 }, { str := "-3.000,00", x := 50, y := 100 },
  { str := "9.000,00", x := 90, y := 100 }, { str := "BELANJA", x := 30, y := 100 }]

/-- Record produced on c4witems. -/
def c4wrec : TrxRecord :=
  { tahun := some 2025, tgl := "02 Feb", ket := "BELANJA", type := TrxType.debit,
    mutasi := some 3000, saldo := some 9000 }

/-- Witness for C4: the amended claim applied to a concrete record of the
Direct Token Parser. -/
theorem claim4_witness :
    c4wrec ∈ parseDirectTransactions c4witems 2025 ∧ c4wrec.mutasi = some 3000 ∧
    (0 ≤ (3000 : JsRat).num ∧ 0 < (3000 : JsRat).den) :=
  ⟨by decide, rfl,
    claim4_theorem c4witems 2025 c4wrec 3000 (Or.inl (by decide)) (by decide)⟩

/-- The specification test input of the Row Reconstruction Parser: a
header row and one data row. -/
def c6items : List Item := [
  { str := "No", x := 10, y := 100 }, { str := "Tanggal", x := 40, y := 100 },
  { str := "1", x := 10, y := 90 }, { str := "01 Jan 2025", x := 30, y := 90 },
  { str := "TRANSFER MASUK", x := 60, y := 90 },
  { str := "+1.000.000,00", x := 90, y := 90 }, { str := "5.000.000,00", x := 120, y := 90 }]

/-- The record the code emits on c6items: the row-ordinal cell "1" is
part of the description. -/
def c6rec : TrxRecord :=
  { tahun := some 2025, tgl := "01 Jan 2025", ket := "1 TRANSFER MASUK",
    type := TrxType.credit, mutasi := some 1000000, saldo := some 5000000 }

/-- Counterexample to C6: on the specification test row the emitted
description is "1 TRANSFER MASUK", not "TRANSFER MASUK", because the
row-ordinal cell is not excluded from the description cells. -/
theorem claim6_cex :
    parseMandiriPage c6items 2025 = [c6rec] ∧ c6rec.ket ≠ "TRANSFER MASUK" :=
  ⟨by decide, by decide⟩

/-- Claim C6 (amended): on the specification test row the Row
Reconstruction Parser emits exactly one record with kind credit, amount
1000000 and balance 5000000, and with description "1 TRANSFER MASUK"
(the row-ordinal cell is included in the description). -/
theorem claim6_theorem :
    parseMandiriPage c6items 2025 = [c6rec] ∧ c6rec.type = TrxType.credit ∧
    c6rec.mutasi = some 1000000 ∧ c6rec.saldo = some 5000000 ∧
    c6rec.ket = "1 TRANSFER MASUK" :=
  ⟨by decide, rfl, rfl, rfl, rfl⟩

/-- Claim C7: the per-page Format-B result is the Row Reconstruction
output when nonempty, else the Direct Token output when nonempty, else
the Pattern-Line output; a fallback is never consulted when an earlier
strategy returned records. -/
theorem claim7_theorem (items : List Item) (year : Int) :
    (parseMandiriPage items year ≠ [] →
      parseMandiriPageRecords items year = parseMandiriPage items year) ∧
    (parseMandiriPage items year = [] → parseDirectTransactions items year ≠ [] →
      parseMandiriPageRecords items year = parseDirectTransactions items year) ∧
    (parseMandiriPage items year = [] → parseDirectTransactions items year = [] →
      parseMandiriPageRecords items year = parsePatternBased items year) := by
  unfold parseMandiriPageRecords
  refine ⟨?_, ?_, ?_⟩
  · intro h
    simp [List.length_pos.mpr h]
  · intro h1 h2
    simp [h1, List.length_pos.mpr h2]
  · intro h1 h2
    simp [h1, h2]

/-- Input of the C7 witness: a page on which the Row Reconstruction
Parser succeeds. -/
def c7items : List Item := [
  { str := "No", x := 10, y := 100 }, { str := "Tanggal", x := 40, y := 100 },
  { str := "1", x := 10, y := 90 }, { str := "03 Mar 2025", x := 30, y := 90 },
  { str := "SETOR TUNAI", x := 60, y := 90 },
  { str := "+2.000.000,00", x := 90, y := 90 }, { str := "6.000.000,00", x := 120, y := 90 }]

/-- Witness for C7: on a page where the primary strategy succeeds, the
per-page result is exactly its output. -/
theorem claim7_witness :
    parseMandiriPage c7items 2025 ≠ [] ∧
    parseMandiriPageRecords c7items 2025 = parseMandiriPage c7items 2025 :=
  ⟨by decide, (claim7_theorem c7items 2025).1 (by decide)⟩

/-- Input of the C8 counterexample: after the saldo-awal check has run,
the stray tokens "AWAL" following the balance are appended to the
description of the first record, whose final text becomes exactly
"SALDO AWAL" while its kind stays credit. -/
def c8items : List String := ["PERIODE", "2025", "TANGGAL", "KETERANGAN",
  "01/01", "SALDO", "1,000.00", "2,000.00", "AWAL",
  "02/01", "X", "3,000.00", "4,000.00", "ZZ", "YY"]

/-- First record emitted on c8items: description "SALDO AWAL", kind
credit. -/
def c8rec1 : TrxRecord :=
  { tahun := some 2025, tgl := "01/01", ket := "SALDO AWAL", type := TrxType.credit,
    mutasi := some 1000, saldo := some 2000 }

/-- Second record emitted on c8items. -/
def c8rec2 : TrxRecord :=
  { tahun := some 2025, tgl := "02/01", ket := "X ZZ YY", type := TrxType.credit,
    mutasi := some 3000, saldo := some 4000 }

/-- Counterexample to C8: the Sequential Statement Parser emits a record
whose fully assembled description equals "saldo awal" case-insensitively
but whose kind is credit, because the override ran before later stray
tokens were appended to the description. -/
theorem claim8_cex :
    parseBCAItems c8items = .ok [c8rec1, c8rec2] ∧
    jsToLower c8rec1.ket = "saldo awal" ∧
    c8rec1.type ≠ TrxType.saldo_awal :=
  ⟨by decide, by decide, by decide⟩

/-- Claim C8 (amended): in the three Format-B strategies, any emitted
record whose description case-insensitively contains (hence in particular
equals) "saldo awal" has kind saldo_awal, overriding the sign-based
classification; the Sequential Statement Parser applies its override to
the description assembled at record close, which later stray tokens can
still extend. -/
theorem claim8_theorem (items : List Item) (year : Int) (r : TrxRecord)
    (hmem : r ∈ parseMandiriPage items year ∨ r ∈ parseDirectTransactions items year ∨
      r ∈ parsePatternBased items year)
    (hket : jsIncludes (jsToLower r.ket) "saldo awal" = true) :
    r.type = TrxType.saldo_awal := by
  rcases hmem with h | h | h
  · exact (parseMandiriPage_inv _ _ _ h).2.1 hket
  · exact (parseDirectTransactions_inv _ _ _ h).2.1 hket
  · exact (parsePatternBased_inv _ _ _ h).2.1 hket

/-- Input of the C8 witness. -/
def c8witems : List Item := [
  { str := "No", x := 10, y := 100 }, { str := "Tanggal", x := 40, y := 100 },
  { str := "1", x := 10, y := 90 }, { str := "01 Jan 2025", x := 30, y := 90 },
  { str := "Saldo Awal", x := 60, y := 90 },
  { str := "1.000,00", x := 80, y := 90 }, { str := "2.000,00", x := 95, y := 90 }]

/-- Record produced on c8witems: its description contains "saldo awal"
and its kind is saldo_awal. -/
def c8wrec : TrxRecord :=
  { tahun := some 2025, tgl := "01 Jan 2025", ket := "1 Saldo Awal",
    type := TrxType.saldo_awal, mutasi := some 1000, saldo := some 2000 }

/-- Witness for C8: the amended claim applied to a concrete record. -/
theorem claim8_witness :
    c8wrec ∈ parseMandiriPage c8witems 2025 ∧
    jsIncludes (jsToLower c8wrec.ket) "saldo awal" = true ∧
    c8wrec.type = TrxType.saldo_awal :=
  ⟨by decide, by decide,
    claim8_theorem c8witems 2025 c8wrec (Or.inl (by decide)) (by decide)⟩

/-- Modelled from the spec: the Format-A money grammar, one to three
digits, then comma-separated groups of exactly three digits, then a
period and a mandatory two-digit fraction. -/
def specFormatA (s : String) : Prop :=
  ∃ (g0 : List Char) (gs : List (List Char)) (f : List Char),
    s.data = g0 ++ (gs.map (fun g => ',' :: g)).flatten ++ '.' :: f ∧
    1 ≤ g0.length ∧ g0.length ≤ 3 ∧ (∀ c ∈ g0, c.isDigit = true) ∧
    (∀ g ∈ gs, g.length = 3 ∧ ∀ c ∈ g, c.isDigit = true) ∧
    f.length = 2 ∧ (∀ c ∈ f, c.isDigit = true)

/-- Modelled from the spec: a signed or unsigned period-thousands,
comma-decimal Format-B value, with the given sign prefix. -/
def specBValue (sign : List Char) (s : String) : Prop :=
  ∃ (g0 : List Char) (gs : List (List Char)) (f : List Char),
    s.data = sign ++ g0 ++ (gs.map (fun g => '.' :: g)).flatten ++ ',' :: f ∧
    1 ≤ g0.length ∧ g0.length ≤ 3 ∧ (∀ c ∈ g0, c.isDigit = true) ∧
    (∀ g ∈ gs, g.length = 3 ∧ ∀ c ∈ g, c.isDigit = true) ∧
    f.length = 2 ∧ (∀ c ∈ f, c.isDigit = true)

theorem moneyGroups_sound (l : List Char) (h : moneyGroups l = true) :
    ∃ (gs : List (List Char)) (f : List Char),
      l = (gs.map (fun g => ',' :: g)).flatten ++ '.' :: f ∧
      (∀ g ∈ gs, g.length = 3 ∧ ∀ c ∈ g, c.isDigit = true) ∧
      f.length = 2 ∧ (∀ c ∈ f, c.isDigit = true) := by
  induction l using moneyGroups.induct with
  | case1 => simp [moneyGroups] at h
  | case2 a b d rest2 ih =>
    simp only [moneyGroups, if_pos, Bool.and_eq_true] at h
    obtain ⟨⟨⟨ha, hb⟩, hd⟩, hrest⟩ := h
    obtain ⟨gs, f, heq, hgs, hf2, hfd⟩ := ih hrest
    refine ⟨[a, b, d] :: gs, f, ?_, ?_, hf2, hfd⟩
    · simp [heq]
    · intro g hg
      rcases List.mem_cons.mp hg with hg | hg
      · subst hg
        refine ⟨rfl, ?_⟩
        intro c hc
        simp only [List.mem_cons, List.not_mem_nil, or_false] at hc
        rcases hc with rfl | rfl | rfl <;> assumption
      · exact hgs g hg
  | case3 t hx =>
    rcases t with _ | ⟨a, t1⟩
    · simp [moneyGroups] at h
    · rcases t1 with _ | ⟨b, t2⟩
      · simp [moneyGroups] at h
      · rcases t2 with _ | ⟨d, t3⟩
        · simp [moneyGroups] at h
        · exact (hx a b d t3 rfl).elim
  | case4 a b =>
    simp only [moneyGroups] at h
    simp only [if_true] at h
    rw [if_neg (show ¬('.' = ',') by decide)] at h
    simp only [Bool.and_eq_true] at h
    refine ⟨[], [a, b], by simp, by simp, rfl, ?_⟩
    intro c hc
    simp only [List.mem_cons, List.not_mem_nil, or_false] at hc
    rcases hc with rfl | rfl
    · exact h.1
    · exact h.2
  | case5 t hx hne =>
    rcases t with _ | ⟨a, t1⟩
    · simp [moneyGroups] at h
    · rcases t1 with _ | ⟨b, t2⟩
      · simp [moneyGroups] at h
      · rcases t2 with _ | ⟨d, t3⟩
        · exact (hx a b rfl).elim
        · simp [moneyGroups] at h
  | case6 c t hc1 hc2 =>
    rw [moneyGroups.eq_def] at h
    simp [hc1, hc2] at h

theorem moneyGroups_complete (gs : List (List Char)) (f : List Char)
    (hgs : ∀ g ∈ gs, g.length = 3 ∧ ∀ c ∈ g, c.isDigit = true)
    (hf2 : f.length = 2) (hfd : ∀ c ∈ f, c.isDigit = true) :
    moneyGroups ((gs.map (fun g => ',' :: g)).flatten ++ '.' :: f) = true := by
  induction gs with
  | nil =>
    obtain ⟨a, b, rfl⟩ := List.length_eq_two.mp hf2
    simp [moneyGroups, hfd a (by simp), hfd b (by simp)]
  | cons g gs2 ih =>
    obtain ⟨hg3, hgd⟩ := hgs g (List.mem_cons_self _ _)
    obtain ⟨a, b, d, rfl⟩ := List.length_eq_three.mp hg3
    have hrec := ih (fun g hg => hgs g (List.mem_cons_of_mem _ hg))
    simp [moneyGroups, hgd a (by simp), hgd b (by simp), hgd d (by simp), hrec]

theorem groups_head_not_digit (gs : List (List Char)) (f : List Char) :
    ∃ c t, (gs.map (fun g => ',' :: g)).flatten ++ '.' :: f = c :: t ∧ c.isDigit = false := by
  cases gs with
  | nil => exact ⟨'.', f, by simp, by decide⟩
  | cons g gs2 =>
    refine ⟨',', g ++ ((gs2.map (fun g => ',' :: g)).flatten ++ '.' :: f), ?_, by decide⟩
    simp

theorem moneyRgxTest_sound (s : String) (h : moneyRgxTest s = true) : specFormatA s := by
  unfold specFormatA
  rcases hd : s.data with _ | ⟨c1, t1⟩
  · rw [moneyRgxTest.eq_def, hd] at h
    simp at h
  · rw [moneyRgxTest.eq_def, hd] at h
    simp only [Bool.and_eq_true] at h
    obtain ⟨hc1, h1⟩ := h
    rcases t1 with _ | ⟨c2, t2⟩
    · simp [moneyAfter1] at h1
    · rw [moneyAfter1.eq_def] at h1
      dsimp only at h1
      by_cases hc2 : c2.isDigit = true
      · rw [if_pos hc2] at h1
        rcases t2 with _ | ⟨c3, t3⟩
        · simp [moneyAfter2] at h1
        · rw [moneyAfter2.eq_def] at h1
          dsimp only at h1
          by_cases hc3 : c3.isDigit = true
          · rw [if_pos hc3] at h1
            obtain ⟨gs, f, heq, hgs, hf2, hfd⟩ := moneyGroups_sound _ h1
            refine ⟨[c1, c2, c3], gs, f, ?_, by simp, by simp, ?_, hgs, hf2, hfd⟩
            · rw [heq]
              simp
            · intro c hc
              simp only [List.mem_cons, List.not_mem_nil, or_false] at hc
              rcases hc with rfl | rfl | rfl <;> assumption
          · rw [if_neg hc3] at h1
            obtain ⟨gs, f, heq, hgs, hf2, hfd⟩ := moneyGroups_sound _ h1
            refine ⟨[c1, c2], gs, f, ?_, by simp, by simp, ?_, hgs, hf2, hfd⟩
            · rw [heq]
              simp
            · intro c hc
              simp only [List.mem_cons, List.not_mem_nil, or_false] at hc
              rcases hc with rfl | rfl <;> assumption
      · rw [if_neg hc2] at h1
        obtain ⟨gs, f, heq, hgs, hf2, hfd⟩ := moneyGroups_sound _ h1
        refine ⟨[c1], gs, f, ?_, by simp, by simp, ?_, hgs, hf2, hfd⟩
        · rw [heq]
          simp
        · intro c hc
          simp only [List.mem_cons, List.not_mem_nil, or_false] at hc
          rcases hc with rfl
          exact hc1

theorem moneyRgxTest_complete (s : String) (h : specFormatA s) : moneyRgxTest s = true := by
  obtain ⟨g0, gs, f, heq, hlen1, hlen3, hg0, hgs, hf2, hfd⟩ := h
  obtain ⟨c, t, hrest, hcd⟩ := groups_head_not_digit gs f
  have hgrp : moneyGroups (c :: t) = true := by
    rw [← hrest]
    exact moneyGroups_complete gs f hgs hf2 hfd
  have hcd2 : ¬(c.isDigit = true) := by simp [hcd]
  rcases g0 with _ | ⟨a, g1⟩
  · simp at hlen1
  · rcases g1 with _ | ⟨b, g2⟩
    · rw [moneyRgxTest.eq_def, heq]
      simp only [List.cons_append, List.nil_append]
      rw [hrest]
      rw [moneyAfter1.eq_def]
      dsimp only
      rw [if_neg hcd2]
      simp [hg0 a (by simp), hgrp]
    · rcases g2 with _ | ⟨d, g3⟩
      · rw [moneyRgxTest.eq_def, heq]
        simp only [List.cons_append, List.nil_append]
        rw [hrest]
        rw [moneyAfter1.eq_def]
        dsimp only
        rw [if_pos (hg0 b (by simp))]
        rw [moneyAfter2.eq_def]
        dsimp only
        rw [if_neg hcd2]
        simp [hg0 a (by simp), hgrp]
      · rcases g3 with _ | ⟨e, g4⟩
        · rw [moneyRgxTest.eq_def, heq]
          simp only [List.cons_append, List.nil_append]
          rw [moneyAfter1.eq_def]
          dsimp only
          rw [if_pos (hg0 b (by simp))]
          rw [moneyAfter2.eq_def]
          dsimp only
          rw [if_pos (hg0 d (by simp))]
          simp only [hg0 a (by simp), Bool.true_and]
          exact moneyGroups_complete gs f hgs hf2 hfd
        · simp at hlen3

theorem numTailCheck_accepts (g0 : List Char) (gs : List (List Char)) (a b : Char)
    (hlen1 : 1 ≤ g0.length) (hg0 : ∀ c ∈ g0, c.isDigit = true)
    (hgs : ∀ g ∈ gs, g.length = 3 ∧ ∀ c ∈ g, c.isDigit = true)
    (ha : a.isDigit = true) (hb : b.isDigit = true) :
    numTailCheck (g0 ++ (gs.map (fun g => '.' :: g)).flatten ++ ',' :: [a, b]) = true := by
  have hne : g0 ++ (gs.map (fun g => '.' :: g)).flatten ≠ [] := by
    rcases g0 with _ | _
    · simp at hlen1
    · simp
  rw [numTailCheck.eq_def]
  have hrev : (g0 ++ (gs.map (fun g => '.' :: g)).flatten ++ ',' :: [a, b]).reverse
      = b :: a :: ',' :: (g0 ++ (gs.map (fun g => '.' :: g)).flatten).reverse := by
    simp
  rw [hrev]
  dsimp only
  simp only [ha, hb, beq_self_eq_true, Bool.true_and, Bool.and_eq_true, Bool.not_eq_true',
    List.all_eq_true]
  refine ⟨?_, ?_⟩
  · rcases g0 with _ | ⟨x, g⟩
    · simp at hlen1
    · simp
  · intro c hc
    rw [List.mem_reverse] at hc
    rcases List.mem_append.mp hc with hx | hx
    · simp [numTailClass, hg0 c hx]
    · obtain ⟨x, hxm, hcx⟩ := List.mem_flatten.mp hx
      obtain ⟨g, hgm, hgx⟩ := List.mem_map.mp hxm
      rw [← hgx] at hcx
      rcases List.mem_cons.mp hcx with rfl | hcg
      · decide
      · simp [numTailClass, (hgs g hgm).2 c hcg]

/-- Claim C9 (amended): the Format-A money matcher accepts exactly the
comma-grouped, period-decimal strings with a mandatory two-digit
fraction; the Row Reconstruction and Direct Token matchers accept the
unsigned, minus-signed and plus-signed period-thousands comma-decimal
values; the Pattern-Line matcher accepts the unsigned and minus-signed
values only (plus-signed values are rejected, see the counterexample). -/
theorem claim9_theorem :
    (∀ s, moneyRgxTest s = true ↔ specFormatA s) ∧
    (∀ s sign, (sign = [] ∨ sign = ['-'] ∨ sign = ['+']) → specBValue sign s →
      (mandiriNegNum s || mandiriPosNum s || mandiriUnsignedNum s) = true ∧
      directNum s = true) ∧
    (∀ s sign, (sign = [] ∨ sign = ['-']) → specBValue sign s → patternNum s = true) := by
  refine ⟨fun s => ⟨moneyRgxTest_sound s, moneyRgxTest_complete s⟩, ?_, ?_⟩
  · intro s sign hsign hval
    obtain ⟨g0, gs, f, hdata, hlen1, hlen3, hg0, hgs, hf2, hfd⟩ := hval
    obtain ⟨a, b, rfl⟩ := List.length_eq_two.mp hf2
    have ha := hfd a (by simp)
    have hb := hfd b (by simp)
    have htail := numTailCheck_accepts g0 gs a b hlen1 hg0 hgs ha hb
    rcases g0 with _ | ⟨c0, g0t⟩
    · simp at hlen1
    · have hc0 : c0.isDigit = true := hg0 c0 (by simp)
      have hc0m : ¬(c0 = '-') := by
        intro hcon
        rw [hcon] at hc0
        exact absurd hc0 (by decide)
      have hc0p : ¬(c0 = '+') := by
        intro hcon
        rw [hcon] at hc0
        exact absurd hc0 (by decide)
      rcases hsign with rfl | rfl | rfl
      · simp only [List.nil_append] at hdata
        have hhead : s.data.head? = some c0 := by
          rw [hdata]
          rfl
        have hu : mandiriUnsignedNum s = true := by
          show numTailCheck s.data = true
          rw [hdata]
          exact htail
        refine ⟨by simp [hu], ?_⟩
        simp only [directNum]
        rw [if_neg (by simp [hhead, hc0m]), if_neg (by simp [hhead, hc0p])]
        rw [hdata]
        exact htail
      · have hdata2 : s.data = '-' :: ((c0 :: g0t) ++
            (gs.map (fun g => '.' :: g)).flatten ++ ',' :: [a, b]) := by
          rw [hdata]
          simp
        have hhead : s.data.head? = some '-' := by
          rw [hdata2]
          rfl
        have htl : s.data.tail = (c0 :: g0t) ++
            (gs.map (fun g => '.' :: g)).flatten ++ ',' :: [a, b] := by
          rw [hdata2]
          rfl
        have hn : mandiriNegNum s = true := by
          simp only [mandiriNegNum]
          rw [if_pos hhead, htl]
          exact htail
        refine ⟨by simp [hn], ?_⟩
        simp only [directNum]
        rw [if_pos hhead, htl]
        exact htail
      · have hdata2 : s.data = '+' :: ((c0 :: g0t) ++
            (gs.map (fun g => '.' :: g)).flatten ++ ',' :: [a, b]) := by
          rw [hdata]
          simp
        have hhead : s.data.head? = some '+' := by
          rw [hdata2]
          rfl
        have htl : s.data.tail = (c0 :: g0t) ++
            (gs.map (fun g => '.' :: g)).flatten ++ ',' :: [a, b] := by
          rw [hdata2]
          rfl
        have hp : mandiriPosNum s = true := by
          simp only [mandiriPosNum]
          rw [if_pos hhead, htl]
          exact htail
        refine ⟨by simp [hp], ?_⟩
        simp only [directNum]
        rw [if_neg (by simp [hhead]), if_pos hhead, htl]
        exact htail
  · intro s sign hsign hval
    obtain ⟨g0, gs, f, hdata, hlen1, hlen3, hg0, hgs, hf2, hfd⟩ := hval
    obtain ⟨a, b, rfl⟩ := List.length_eq_two.mp hf2
    have ha := hfd a (by simp)
    have hb := hfd b (by simp)
    have htail := numTailCheck_accepts g0 gs a b hlen1 hg0 hgs ha hb
    rcases g0 with _ | ⟨c0, g0t⟩
    · simp at hlen1
    · have hc0 : c0.isDigit = true := hg0 c0 (by simp)
      have hc0m : ¬(c0 = '-') := by
        intro hcon
        rw [hcon] at hc0
        exact absurd hc0 (by decide)
      rcases hsign with rfl | rfl
      · simp only [List.nil_append] at hdata
        have hhead : s.data.head? = some c0 := by
          rw [hdata]
          rfl
        simp only [patternNum]
        rw [if_neg (by simp [hhead, hc0m])]
        rw [hdata]
        exact htail
      · have hdata2 : s.data = '-' :: ((c0 :: g0t) ++
            (gs.map (fun g => '.' :: g)).flatten ++ ',' :: [a, b]) := by
          rw [hdata]
          simp
        have hhead : s.data.head? = some '-' := by
          rw [hdata2]
          rfl
        have htl : s.data.tail = (c0 :: g0t) ++
            (gs.map (fun g => '.' :: g)).flatten ++ ',' :: [a, b] := by
          rw [hdata2]
          rfl
        simp only [patternNum]
        rw [if_pos hhead, htl]
        exact htail

/-- Counterexample to C9: "+1.000.000,00" is a plus-signed Format-B value
(as witnessed against the spec grammar), the Direct Token matcher accepts
it, but the Pattern-Line matcher rejects it: its regular expression only
allows an optional minus sign. -/
theorem claim9_cex :
    specBValue ['+'] "+1.000.000,00" ∧
    patternNum "+1.000.000,00" = false ∧
    directNum "+1.000.000,00" = true :=
  ⟨⟨['1'], [['0', '0', '0'], ['0', '0', '0']], ['0', '0'], by decide⟩, by decide, by decide⟩

/-- Witness for C9: the amended claim applied to concrete values of both
formats. -/
theorem claim9_witness :
    moneyRgxTest "1,234.56" = true ∧
    (mandiriNegNum "-1.000,00" || mandiriPosNum "-1.000,00" ||
      mandiriUnsignedNum "-1.000,00") = true ∧
    directNum "-1.000,00" = true ∧
    patternNum "-1.000,00" = true := by
  have hB := claim9_theorem.2.1 "-1.000,00" ['-'] (Or.inr (Or.inl rfl))
    ⟨['1'], [['0', '0', '0']], ['0', '0'], by decide⟩
  have hP := claim9_theorem.2.2 "-1.000,00" ['-'] (Or.inr rfl)
    ⟨['1'], [['0', '0', '0']], ['0', '0'], by decide⟩
  exact ⟨(claim9_theorem.1 "1,234.56").mpr
    ⟨['1'], [['2', '3', '4']], ['5', '6'], by decide⟩, hB.1, hB.2, hP⟩
